import Mathlib

/-!
Verification of the PostgreSQL set-operator query builder
(`src/drizzle-orm/src/pg-core/query-builders/set-operators.ts`).

The development shallowly embeds the runtime behaviour of that module:

* SQL fragments (`SQL` objects and their `queryChunks`) become the mutual
  inductive `Chunk`/`ChunkList`; a chunk is literal text, a column
  reference, an embedded sub-fragment, a parameter, or an aliased
  reference.
* The external dialect lowering (`dialect.sqlToQuery`) and fragment
  helpers (`sql`, `sql.raw`, `sql.join`) are not under `src/`; they are
  modelled from the spec where noted.
* `PgSetOperator`'s constructor, `getSQL`, `toSQL`, the private fluent
  `setOperator` factory, and the free chain builder `setOperator` are
  embedded as `construct`, `getSQL`, `toSQL`, `setOperatorMethod`, and
  `chainOp`.  The in-place mutation `getSQL` performs on the ORDER BY
  expressions is made explicit: `getSQL` returns the produced fragment
  together with the post-call state of the node.
-/

namespace Drizzle

mutual

/-- One entry of an SQL fragment's `queryChunks` list: literal text
(`StringChunk`, also what `sql.raw` produces), a `PgColumn` reference, a
nested `SQL` sub-fragment, an embedded parameter (a number or a
`Placeholder`), or an `SQL.Aliased` reference. -/
inductive Chunk where
  | str (s : String)
  | col (table name : String)
  | sub (chunks : ChunkList)
  | param (value : String)
  | aliasRef (name : String)
deriving DecidableEq

/-- The `queryChunks` list of an `SQL` fragment. -/
inductive ChunkList where
  | nil
  | cons (c : Chunk) (cs : ChunkList)
deriving DecidableEq

end

def ChunkList.append : ChunkList → ChunkList → ChunkList
  | .nil, ys => ys
  | .cons c cs, ys => .cons c (cs.append ys)

instance : Append ChunkList := ⟨ChunkList.append⟩

/-- Build a `ChunkList` from an ordinary list of chunks. -/
def ofChunks : List Chunk → ChunkList
  | [] => .nil
  | c :: cs => .cons c (ofChunks cs)

def ChunkList.map (f : Chunk → Chunk) : ChunkList → ChunkList
  | .nil => .nil
  | .cons c cs => .cons (f c) (cs.map f)

/-- Membership of a chunk in a `queryChunks` list (top level only). -/
def ChunkList.Mem (c : Chunk) : ChunkList → Prop
  | .nil => False
  | .cons d ds => c = d ∨ ChunkList.Mem c ds

mutual

/-- Modelled from the spec: the sql-text part of the external
`dialect.sqlToQuery` lowering of a single chunk.  A column renders as its
qualified, quoted reference; a nested fragment renders inline; a
parameter renders as a placeholder marker; an aliased reference renders
as its quoted alias. -/
def renderChunk : Chunk → String
  | .str s => s
  | .col t n => "\"" ++ t ++ "\".\"" ++ n ++ "\""
  | .sub g => renderChunks g
  | .param _ => "$"
  | .aliasRef n => "\"" ++ n ++ "\""

/-- Modelled from the spec: sql text of a whole `queryChunks` list. -/
def renderChunks : ChunkList → String
  | .nil => ""
  | .cons c cs => renderChunk c ++ renderChunks cs

end

mutual

/-- Modelled from the spec: the parameter list collected by the external
`dialect.sqlToQuery` from one chunk, in rendering order. -/
def chunkParams : Chunk → List String
  | .str _ => []
  | .col _ _ => []
  | .sub g => chunksParams g
  | .param v => [v]
  | .aliasRef _ => []

/-- Modelled from the spec: parameters of a whole `queryChunks` list. -/
def chunksParams : ChunkList → List String
  | .nil => []
  | .cons c cs => chunkParams c ++ chunksParams cs

end

/-- The `{sql, params}` object `toSQL()` returns (typings stripped). -/
structure Query where
  sql : String
  params : List String
deriving DecidableEq

/-- Modelled from the spec: the external `dialect.sqlToQuery`, flattening
a fragment tree to one parameterized sql string plus its parameters. -/
def sqlToQuery (cs : ChunkList) : Query :=
  { sql := renderChunks cs, params := chunksParams cs }

/-- Modelled from the spec: `sql.raw(s)` - a fragment holding exactly one
literal text chunk. -/
def sqlRaw (s : String) : ChunkList :=
  .cons (.str s) .nil

/-- Modelled from the spec: `sql.join(values, separator)` interleaves the
separator fragment between each element of the value sequence. -/
def sqlJoin : List ChunkList → ChunkList → ChunkList
  | [], _ => .nil
  | [v], _ => .cons (.sub v) .nil
  | v :: vs, sep => .cons (.sub v) (.cons (.sub sep) (sqlJoin vs sep))

/-- Plain string join with a separator (used to state rendering facts). -/
def joinSep (sep : String) : List String → String
  | [] => ""
  | [s] => s
  | s :: rest => s ++ sep ++ joinSep sep rest

/-- A `number | Placeholder` value, as stored in `config.limit` and
`config.offset`. -/
inductive SQLValue where
  | num (n : Int)
  | placeholder (name : String)
deriving DecidableEq

/-- JS truthiness of a `number | Placeholder`: the number `0` is falsy,
every other number is truthy, a `Placeholder` object is always truthy. -/
def SQLValue.jsTruthy : SQLValue → Bool
  | .num n => n != 0
  | .placeholder _ => true

/-- The parameter representation of a limit/offset value. -/
def SQLValue.paramRepr : SQLValue → String
  | .num n => toString n
  | .placeholder s => s

/-- One entry of `config.orderBy`: a bare `PgColumn`, an `SQL`
expression, or an `SQL.Aliased` value (the constructor-dispatch mirrors
the `is(orderBy, PgColumn)` / `is(orderBy, SQL)` / else chain of
`getSQL`). -/
inductive OrderByItem where
  | column (table name : String)
  | sqlExpr (queryChunks : ChunkList)
  | aliased (fieldAlias : String)
deriving DecidableEq

/-- The mutable `config` bag of a `PgSetOperator`: the snapshotted
`fields` row shape (here: the ordered field-name sequence) plus the
optional `limit`, `orderBy` and `offset` modifiers. -/
structure SetOpConfig where
  fields : List String
  limit : Option SQLValue := none
  orderBy : Option (List OrderByItem) := none
  offset : Option SQLValue := none
deriving DecidableEq

/-- A base query (an operand built by the single-select builder): its
selected-field name sequence, its `getSQL()` fragment, and the
session/dialect/join-nullability state `getSetOperatorConfig` exposes. -/
structure BaseQuery where
  fields : List String
  body : ChunkList
  session : Option String := none
  dialect : String := "pg"
  joinsNotNullableMap : List (String × Bool) := []
deriving DecidableEq

/-- The `SetOperator` type: `'union' | 'intersect' | 'except'`. -/
inductive SetOp where
  | union
  | intersect
  | except
deriving DecidableEq

/-- The lowercase keyword of an operator. -/
def SetOp.keyword : SetOp → String
  | .union => "union"
  | .intersect => "intersect"
  | .except => "except"

/-- A query value at runtime: either a base query or a constructed
`PgSetOperator` node (operator, isAll flag, the two operands, and the
state snapshotted from the left operand by the constructor). -/
inductive QueryNode where
  | base (q : BaseQuery)
  | comb (operator : SetOp) (isAll : Bool) (left right : QueryNode)
      (session : Option String) (dialect : String)
      (joins : List (String × Bool)) (config : SetOpConfig)
deriving DecidableEq

/-- `getSelectedFields()`: the row shape a query exposes — for a
combinator node this is `config.fields`, the snapshot taken from its
left operand. -/
def QueryNode.getSelectedFields : QueryNode → List String
  | .base q => q.fields
  | .comb _ _ _ _ _ _ _ cfg => cfg.fields

/-- The `session` component of `getSetOperatorConfig()`. -/
def QueryNode.sessionOf : QueryNode → Option String
  | .base q => q.session
  | .comb _ _ _ _ s _ _ _ => s

/-- The `dialect` component of `getSetOperatorConfig()`. -/
def QueryNode.dialectOf : QueryNode → String
  | .base q => q.dialect
  | .comb _ _ _ _ _ d _ _ => d

/-- The `joinsNotNullableMap` component of `getSetOperatorConfig()`. -/
def QueryNode.joinsOf : QueryNode → List (String × Bool)
  | .base q => q.joinsNotNullableMap
  | .comb _ _ _ _ _ _ j _ => j

/-- The `config` bag of a combinator node (base queries have none). -/
def QueryNode.configOf : QueryNode → Option SetOpConfig
  | .base _ => none
  | .comb _ _ _ _ _ _ _ cfg => some cfg

/-- Modelled from the spec: `haveSameKeys` from `~/utils.ts` (not under
`src/`); per the spec it holds iff the two row shapes have identical
field-name sequences — same names, same order. -/
def haveSameKeys (l r : List String) : Bool :=
  l == r

/-- The synchronous failures of this module: the constructor's shape
error, the chain builder's undefined-operand error, and the JS
`TypeError` raised when a non-query value (e.g. a bare function) is used
where a query is required. -/
inductive SetOpError where
  | shapeMismatch (message : String)
  | missingOperand (message : String)
  | typeError
deriving DecidableEq

def shapeMismatchMessage : String :=
  "Set operator error (union / intersect / except): selected fields are not the same or are in a different order"

def missingOperandMessage : String :=
  "Cannot pass undefined values to any set operator"

/-- The node the `PgSetOperator` constructor produces on success: left
and right operands stored, and session, dialect, join-nullability map
and `config.fields` all snapshotted from the left operand. -/
def mkNode (operator : SetOp) (isAll : Bool) (l r : QueryNode) : QueryNode :=
  .comb operator isAll l r l.sessionOf l.dialectOf l.joinsOf
    { fields := l.getSelectedFields }

/-- The `PgSetOperator` constructor: compares the operands' selected
fields with `haveSameKeys` and throws the shape-mismatch error when they
differ; otherwise snapshots the left operand's state. -/
def construct (operator : SetOp) (isAll : Bool) (l r : QueryNode) :
    Except SetOpError QueryNode :=
  if haveSameKeys l.getSelectedFields r.getSelectedFields then
    .ok (mkNode operator isAll l r)
  else
    .error (.shapeMismatch shapeMismatchMessage)

/-- The registry `getPgSetOperators()` hands to operand callbacks: the
six operator-constructor helpers. -/
structure PgSetOperatorsReg where
  union : QueryNode → QueryNode → List (Option QueryNode) → Except SetOpError QueryNode
  unionAll : QueryNode → QueryNode → List (Option QueryNode) → Except SetOpError QueryNode
  intersect : QueryNode → QueryNode → List (Option QueryNode) → Except SetOpError QueryNode
  intersectAll : QueryNode → QueryNode → List (Option QueryNode) → Except SetOpError QueryNode
  except : QueryNode → QueryNode → List (Option QueryNode) → Except SetOpError QueryNode
  exceptAll : QueryNode → QueryNode → List (Option QueryNode) → Except SetOpError QueryNode

/-- An operand position after the first: at runtime either a literal
query value or a function expecting the operator registry. -/
inductive OperandArg where
  | lit (q : QueryNode)
  | fn (f : PgSetOperatorsReg → Except SetOpError QueryNode)

/-- What `new PgSetOperator(type, isAll, left, right)` does when `right`
is an arbitrary runtime value: for a query it runs `construct`; for a
function value the constructor's immediate `rightSelect.getSelectedFields()`
call raises a `TypeError` (functions have no such method) — the free
chain builder performs no resolution of function operands. -/
def constructDyn (operator : SetOp) (isAll : Bool) (l : QueryNode)
    (r : OperandArg) : Except SetOpError QueryNode :=
  match r with
  | .lit q => construct operator isAll l q
  | .fn _ => .error .typeError

/-- The free chain builder `setOperator(type, isAll)`: with no rest
operands it constructs the pair; otherwise it first rejects an
`undefined` head rest operand, then constructs the running pair and
recurses with the constructed node as the new left operand. -/
def chainOp (operator : SetOp) (isAll : Bool) :
    QueryNode → OperandArg → List (Option OperandArg) → Except SetOpError QueryNode
  | l, r, [] => constructDyn operator isAll l r
  | _, _, none :: _ => .error (.missingOperand missingOperandMessage)
  | l, r, some sel :: rest => do
      let node ← constructDyn operator isAll l r
      chainOp operator isAll node sel rest

/-- The exported free function `union`. -/
def union (leftSelect : QueryNode) (rightSelect : OperandArg)
    (restSelects : List (Option OperandArg)) : Except SetOpError QueryNode :=
  chainOp SetOp.union false leftSelect rightSelect restSelects

/-- The exported free function `unionAll`. -/
def unionAll (leftSelect : QueryNode) (rightSelect : OperandArg)
    (restSelects : List (Option OperandArg)) : Except SetOpError QueryNode :=
  chainOp SetOp.union true leftSelect rightSelect restSelects

/-- The exported free function `intersect`. -/
def intersect (leftSelect : QueryNode) (rightSelect : OperandArg)
    (restSelects : List (Option OperandArg)) : Except SetOpError QueryNode :=
  chainOp SetOp.intersect false leftSelect rightSelect restSelects

/-- The exported free function `intersectAll`. -/
def intersectAll (leftSelect : QueryNode) (rightSelect : OperandArg)
    (restSelects : List (Option OperandArg)) : Except SetOpError QueryNode :=
  chainOp SetOp.intersect true leftSelect rightSelect restSelects

/-- The exported free function `except`. -/
def except (leftSelect : QueryNode) (rightSelect : OperandArg)
    (restSelects : List (Option OperandArg)) : Except SetOpError QueryNode :=
  chainOp SetOp.except false leftSelect rightSelect restSelects

/-- The exported free function `exceptAll`. -/
def exceptAll (leftSelect : QueryNode) (rightSelect : OperandArg)
    (restSelects : List (Option OperandArg)) : Except SetOpError QueryNode :=
  chainOp SetOp.except true leftSelect rightSelect restSelects

/-- `getPgSetOperators()`: the registry of the six operator-constructor
helpers passed to a function operand (callbacks pass literal operands). -/
def getPgSetOperators : PgSetOperatorsReg where
  union := fun l r rest =>
    chainOp SetOp.union false l (.lit r) (rest.map (Option.map OperandArg.lit))
  unionAll := fun l r rest =>
    chainOp SetOp.union true l (.lit r) (rest.map (Option.map OperandArg.lit))
  intersect := fun l r rest =>
    chainOp SetOp.intersect false l (.lit r) (rest.map (Option.map OperandArg.lit))
  intersectAll := fun l r rest =>
    chainOp SetOp.intersect true l (.lit r) (rest.map (Option.map OperandArg.lit))
  except := fun l r rest =>
    chainOp SetOp.except false l (.lit r) (rest.map (Option.map OperandArg.lit))
  exceptAll := fun l r rest =>
    chainOp SetOp.except true l (.lit r) (rest.map (Option.map OperandArg.lit))

/-- `PgSetOperatorBuilder.setOperator(type, isAll)`: the fluent instance
factory.  A function operand is resolved first — applied to
`getPgSetOperators()` — and only then is the constructor (and so the
shape validation) run on the resolved query. -/
def setOperatorMethod (operator : SetOp) (isAll : Bool) (self : QueryNode)
    (rightSelect : OperandArg) : Except SetOpError QueryNode :=
  match rightSelect with
  | .fn f => do
      let rightSelectOrig ← f getPgSetOperators
      construct operator isAll self rightSelectOrig
  | .lit q => construct operator isAll self q

/-- The fluent instance method `.union(...)`. -/
def QueryNode.union (self : QueryNode) (rightSelect : OperandArg) :
    Except SetOpError QueryNode :=
  setOperatorMethod SetOp.union false self rightSelect

/-- The fluent instance method `.unionAll(...)`. -/
def QueryNode.unionAll (self : QueryNode) (rightSelect : OperandArg) :
    Except SetOpError QueryNode :=
  setOperatorMethod SetOp.union true self rightSelect

/-- The fluent instance method `.intersect(...)`. -/
def QueryNode.intersect (self : QueryNode) (rightSelect : OperandArg) :
    Except SetOpError QueryNode :=
  setOperatorMethod SetOp.intersect false self rightSelect

/-- The fluent instance method `.intersectAll(...)`. -/
def QueryNode.intersectAll (self : QueryNode) (rightSelect : OperandArg) :
    Except SetOpError QueryNode :=
  setOperatorMethod SetOp.intersect true self rightSelect

/-- The fluent instance method `.except(...)`. -/
def QueryNode.exceptMethod (self : QueryNode) (rightSelect : OperandArg) :
    Except SetOpError QueryNode :=
  setOperatorMethod SetOp.except false self rightSelect

/-- The fluent instance method `.exceptAll(...)`. -/
def QueryNode.exceptAll (self : QueryNode) (rightSelect : OperandArg) :
    Except SetOpError QueryNode :=
  setOperatorMethod SetOp.except true self rightSelect

/-- The rewrite `getSQL` applies to each top-level chunk of an ORDER BY
`SQL` expression: `orderBy.queryChunks[i] = sql.raw(chunk.name)` replaces
a `PgColumn` chunk by a raw bare-name fragment; every other chunk — in
particular a nested sub-fragment — is left as it is. -/
def rewriteTopChunk : Chunk → Chunk
  | .col _ name => .sub (sqlRaw name)
  | c => c

/-- The post-`getSQL` state of one `config.orderBy` entry: an `SQL`
expression has had its top-level column chunks rewritten in place;
column and aliased entries are untouched. -/
def rewriteOrderByEntry : OrderByItem → OrderByItem
  | .sqlExpr cs => .sqlExpr (cs.map rewriteTopChunk)
  | e => e

/-- The fragment `getSQL` pushes onto `orderByValues` for one ORDER BY
entry: `sql.raw(orderBy.name)` for a bare column, `sql` wrapping the
(rewritten) expression for an `SQL` value, and `sql` wrapping the value
itself otherwise. -/
def orderByValue : OrderByItem → ChunkList
  | .column _ name => sqlRaw name
  | .sqlExpr cs => .cons (.sub (cs.map rewriteTopChunk)) .nil
  | .aliased a => .cons (.aliasRef a) .nil

/-- The `config` state after `getSQL`: the ORDER BY entries carry the
in-place rewrite; `fields`, `limit` and `offset` are untouched. -/
def rewriteConfig (cfg : SetOpConfig) : SetOpConfig :=
  { cfg with orderBy := cfg.orderBy.map (List.map rewriteOrderByEntry) }

/-- How an optional modifier fragment enters the final template: a set
fragment is embedded as one sub-fragment chunk, `undefined` contributes
nothing. -/
def optChunk : Option ChunkList → ChunkList
  | some cs => .cons (.sub cs) .nil
  | none => .nil

/-- The fragment `getSQL` returns, given the already-rendered left and
right operand fragments: parenthesized left chunk, operator keyword with
optional `all ` suffix, parenthesized right chunk, then the optional
` order by … `, ` limit …` and ` offset …` fragments, each present only
when the corresponding modifier is set (for limit/offset: set to a
JS-truthy value). -/
def combineFragment (operator : SetOp) (isAll : Bool) (lsql rsql : ChunkList)
    (cfg : SetOpConfig) : ChunkList :=
  let leftChunk := ofChunks [.str ("("), .sub lsql, .str (") ")]
  let rightChunk := ofChunks [.str ("("), .sub rsql, .str (")")]
  let orderBySql : Option ChunkList :=
    match cfg.orderBy with
    | some orderBys =>
        if 0 < orderBys.length then
          some (ofChunks [.str (" order by "),
            .sub (sqlJoin (orderBys.map orderByValue) (sqlRaw (", "))),
            .str (" ")])
        else none
    | none => none
  let limitSql : Option ChunkList :=
    match cfg.limit with
    | some v =>
        if v.jsTruthy then some (ofChunks [.str (" limit "), .param v.paramRepr])
        else none
    | none => none
  let operatorChunk : ChunkList :=
    sqlRaw (operator.keyword ++ " " ++ (if isAll then "all " else ""))
  let offsetSql : Option ChunkList :=
    match cfg.offset with
    | some v =>
        if v.jsTruthy then some (ofChunks [.str (" offset "), .param v.paramRepr])
        else none
    | none => none
  ofChunks [.sub leftChunk, .sub operatorChunk, .sub rightChunk]
    ++ optChunk orderBySql ++ optChunk limitSql ++ optChunk offsetSql

/-- `PgSetOperator.getSQL()`.  Because the source mutates the ORDER BY
expressions in place, the embedding returns the produced fragment
together with the post-call state of the node (both operands may be
rewritten recursively, and this node's `config.orderBy` entries carry
the top-level column rewrite). -/
def getSQL : QueryNode → ChunkList × QueryNode
  | .base q => (q.body, .base q)
  | .comb operator isAll l r sess dial joins cfg =>
      (combineFragment operator isAll (getSQL l).1 (getSQL r).1 cfg,
       .comb operator isAll (getSQL l).2 (getSQL r).2 sess dial joins
         (rewriteConfig cfg))

/-- `PgSetOperator.toSQL()`: lower `getSQL()`'s fragment through the
dialect and strip the typings, keeping `{sql, params}`; paired with the
post-call node state. -/
def toSQL (n : QueryNode) : Query × QueryNode :=
  ((sqlToQuery (getSQL n).1), (getSQL n).2)

/-- The rendered operator token: keyword, a space, and `all ` exactly
when the ALL variant was requested. -/
def opToken (operator : SetOp) (isAll : Bool) : String :=
  operator.keyword ++ " " ++ (if isAll then "all " else "")

/-- The rendered text the ORDER BY modifier contributes to the output. -/
def orderBySeg (cfg : SetOpConfig) : String :=
  match cfg.orderBy with
  | some items =>
      if 0 < items.length then
        " order by " ++ joinSep (", ") (items.map fun e => renderChunks (orderByValue e)) ++ " "
      else ""
  | none => ""

/-- The rendered text the LIMIT modifier contributes to the output. -/
def limitSeg (cfg : SetOpConfig) : String :=
  match cfg.limit with
  | some v => if v.jsTruthy then " limit $" else ""
  | none => ""

/-- The rendered text the OFFSET modifier contributes to the output. -/
def offsetSeg (cfg : SetOpConfig) : String :=
  match cfg.offset with
  | some v => if v.jsTruthy then " offset $" else ""
  | none => ""

/-- The left-deep tree the chain builder folds an operand list into:
each step combines the running node (as left operand) with the next
query. -/
def leftDeepFold (operator : SetOp) (isAll : Bool) (acc : QueryNode) :
    List QueryNode → QueryNode
  | [] => acc
  | q :: qs => leftDeepFold operator isAll (mkNode operator isAll acc q) qs

@[simp]
theorem renderChunks_nil : renderChunks .nil = "" := rfl

@[simp]
theorem renderChunks_cons (c : Chunk) (cs : ChunkList) :
    renderChunks (.cons c cs) = renderChunk c ++ renderChunks cs := rfl

@[simp]
theorem append_nil_chunks (ys : ChunkList) : ChunkList.nil ++ ys = ys := rfl

@[simp]
theorem append_cons_chunks (c : Chunk) (cs ys : ChunkList) :
    (ChunkList.cons c cs) ++ ys = .cons c (cs ++ ys) := rfl

@[simp]
theorem renderChunks_append :
    ∀ (xs ys : ChunkList),
      renderChunks (xs ++ ys) = renderChunks xs ++ renderChunks ys
  | .nil, ys => by simp
  | .cons c cs, ys => by simp [renderChunks_append cs ys, String.append_assoc]

@[simp]
theorem chunkList_map_nil (f : Chunk → Chunk) : ChunkList.nil.map f = .nil := rfl

@[simp]
theorem chunkList_map_cons (f : Chunk → Chunk) (c : Chunk) (cs : ChunkList) :
    (ChunkList.cons c cs).map f = .cons (f c) (cs.map f) := rfl

theorem chunkList_map_map (f g : Chunk → Chunk) :
    ∀ (cs : ChunkList), (cs.map f).map g = cs.map fun c => g (f c)
  | .nil => rfl
  | .cons c cs => by simp [chunkList_map_map f g cs]

theorem chunkList_map_congr {f g : Chunk → Chunk} (h : ∀ c, f c = g c) :
    ∀ (cs : ChunkList), cs.map f = cs.map g
  | .nil => rfl
  | .cons c cs => by simp [chunkList_map_congr h cs, h]

theorem chunkList_map_eq_self {f : Chunk → Chunk} :
    ∀ {cs : ChunkList}, cs.map f = cs → ∀ c, ChunkList.Mem c cs → f c = c
  | .nil, _, c, hc => absurd hc (by simp [ChunkList.Mem])
  | .cons d ds, h, c, hc => by
      simp only [chunkList_map_cons, ChunkList.cons.injEq] at h
      rcases hc with hc | hc
      · rw [hc]; exact h.1
      · exact chunkList_map_eq_self h.2 c hc

theorem list_map_eq_self {α : Type} {f : α → α} {l : List α}
    (h : l.map f = l) : ∀ a ∈ l, f a = a := by
  induction l with
  | nil => intro a ha; exact absurd ha (by simp)
  | cons b bs ih =>
      intro a ha
      simp only [List.map_cons, List.cons.injEq] at h
      rcases List.mem_cons.mp ha with ha1 | ha1
      · rw [ha1]; exact h.1
      · exact ih h.2 a ha1

theorem renderChunks_sqlJoin (vs : List ChunkList) (sep : ChunkList) :
    renderChunks (sqlJoin vs sep)
      = joinSep (renderChunks sep) (vs.map renderChunks) := by
  induction vs with
  | nil => rfl
  | cons v vs ih =>
      cases vs with
      | nil => simp [sqlJoin, joinSep, renderChunk]
      | cons w ws =>
          simp only [sqlJoin, List.map_cons, joinSep, renderChunks_cons,
            renderChunk] at ih ⊢
          simp [ih, String.append_assoc]

theorem rewriteTopChunk_idem (c : Chunk) :
    rewriteTopChunk (rewriteTopChunk c) = rewriteTopChunk c := by
  cases c <;> rfl

theorem rewriteOrderByEntry_idem (e : OrderByItem) :
    rewriteOrderByEntry (rewriteOrderByEntry e) = rewriteOrderByEntry e := by
  cases e with
  | sqlExpr cs =>
      simp [rewriteOrderByEntry, chunkList_map_map,
        chunkList_map_congr (fun c => rewriteTopChunk_idem c) cs]
  | column t n => rfl
  | aliased a => rfl

theorem orderByValue_rewrite (e : OrderByItem) :
    orderByValue (rewriteOrderByEntry e) = orderByValue e := by
  cases e with
  | sqlExpr cs =>
      simp [rewriteOrderByEntry, orderByValue, chunkList_map_map,
        chunkList_map_congr (fun c => rewriteTopChunk_idem c) cs]
  | column t n => rfl
  | aliased a => rfl

@[simp]
theorem rewrite_entries_idem (items : List OrderByItem) :
    items.map (rewriteOrderByEntry ∘ rewriteOrderByEntry)
      = items.map rewriteOrderByEntry :=
  List.map_congr_left fun e _ => rewriteOrderByEntry_idem e

@[simp]
theorem orderByValue_entries_rewrite (items : List OrderByItem) :
    items.map (orderByValue ∘ rewriteOrderByEntry)
      = items.map orderByValue :=
  List.map_congr_left fun e _ => orderByValue_rewrite e

theorem rewriteConfig_idem (cfg : SetOpConfig) :
    rewriteConfig (rewriteConfig cfg) = rewriteConfig cfg := by
  rcases cfg with ⟨F, lim, ob, off⟩
  cases ob with
  | none => rfl
  | some items => simp [rewriteConfig, rewrite_entries_idem]

theorem combineFragment_rewriteConfig (operator : SetOp) (isAll : Bool)
    (L R : ChunkList) (cfg : SetOpConfig) :
    combineFragment operator isAll L R (rewriteConfig cfg)
      = combineFragment operator isAll L R cfg := by
  rcases cfg with ⟨F, lim, ob, off⟩
  cases ob with
  | none => rfl
  | some items => simp [combineFragment, rewriteConfig, orderByValue_entries_rewrite]

@[simp]
theorem getSQL_base (q : BaseQuery) : getSQL (.base q) = (q.body, .base q) := rfl

@[simp]
theorem getSQL_comb (operator : SetOp) (isAll : Bool) (l r : QueryNode)
    (sess : Option String) (dial : String) (joins : List (String × Bool))
    (cfg : SetOpConfig) :
    getSQL (.comb operator isAll l r sess dial joins cfg)
      = (combineFragment operator isAll (getSQL l).1 (getSQL r).1 cfg,
         .comb operator isAll (getSQL l).2 (getSQL r).2 sess dial joins
           (rewriteConfig cfg)) := rfl

theorem render_combineFragment (operator : SetOp) (isAll : Bool)
    (L R : ChunkList) (cfg : SetOpConfig) :
    renderChunks (combineFragment operator isAll L R cfg)
      = "(" ++ renderChunks L ++ ") " ++ opToken operator isAll
        ++ "(" ++ renderChunks R ++ ")"
        ++ orderBySeg cfg ++ limitSeg cfg ++ offsetSeg cfg := by
  rcases cfg with ⟨F, lim, ob, off⟩
  cases ob with
  | none =>
      cases lim with
      | none =>
          cases off with
          | none =>
              simp [combineFragment, optChunk, ofChunks, sqlRaw, opToken,
                orderBySeg, limitSeg, offsetSeg, renderChunk,
                String.append_assoc, String.append_empty]
          | some v =>
              by_cases hv : v.jsTruthy <;>
                simp [combineFragment, optChunk, ofChunks, sqlRaw, opToken,
                  orderBySeg, limitSeg, offsetSeg, renderChunk, hv,
                  String.append_assoc, String.append_empty]
      | some w =>
          cases off with
          | none =>
              by_cases hw : w.jsTruthy <;>
                simp [combineFragment, optChunk, ofChunks, sqlRaw, opToken,
                  orderBySeg, limitSeg, offsetSeg, renderChunk, hw,
                  String.append_assoc, String.append_empty]
          | some v =>
              by_cases hw : w.jsTruthy <;> by_cases hv : v.jsTruthy <;>
                simp [combineFragment, optChunk, ofChunks, sqlRaw, opToken,
                  orderBySeg, limitSeg, offsetSeg, renderChunk, hw, hv,
                  String.append_assoc, String.append_empty]
  | some items =>
      by_cases hlen : 0 < items.length <;>
      cases lim with
      | none =>
          cases off with
          | none =>
              simp [combineFragment, optChunk, ofChunks, sqlRaw, opToken,
                orderBySeg, limitSeg, offsetSeg, renderChunk, hlen,
                renderChunks_sqlJoin, joinSep, Function.comp_def,
                String.append_assoc, String.append_empty]
          | some v =>
              by_cases hv : v.jsTruthy <;>
                simp [combineFragment, optChunk, ofChunks, sqlRaw, opToken,
                  orderBySeg, limitSeg, offsetSeg, renderChunk, hlen, hv,
                  renderChunks_sqlJoin, joinSep, Function.comp_def,
                  String.append_assoc, String.append_empty]
      | some w =>
          cases off with
          | none =>
              by_cases hw : w.jsTruthy <;>
                simp [combineFragment, optChunk, ofChunks, sqlRaw, opToken,
                  orderBySeg, limitSeg, offsetSeg, renderChunk, hlen, hw,
                  renderChunks_sqlJoin, joinSep, Function.comp_def,
                  String.append_assoc, String.append_empty]
          | some v =>
              by_cases hw : w.jsTruthy <;> by_cases hv : v.jsTruthy <;>
                simp [combineFragment, optChunk, ofChunks, sqlRaw, opToken,
                  orderBySeg, limitSeg, offsetSeg, renderChunk, hlen, hw, hv,
                  renderChunks_sqlJoin, joinSep, Function.comp_def,
                  String.append_assoc, String.append_empty]

theorem getSQL_getSQL : ∀ n : QueryNode, getSQL (getSQL n).2 = getSQL n
  | .base q => rfl
  | .comb operator isAll l r sess dial joins cfg => by
      simp [getSQL_comb, getSQL_getSQL l, getSQL_getSQL r,
        rewriteConfig_idem, combineFragment_rewriteConfig]

theorem append_ne_empty_of_left (s t : String) (h : s.data ≠ []) :
    s ++ t ≠ "" := by
  intro he
  have hd := congrArg String.data he
  rw [String.data_append] at hd
  exact h (List.append_eq_nil.mp hd).1

/-- C1: for every pair of operand queries, construction of a set-operator
node — through the `PgSetOperator` constructor that all six free
functions and all six fluent methods funnel into — succeeds iff the two
operands' selected-field name sequences are identical (same names, same
order); on any difference it throws the shape-mismatch error and no node
is produced. -/
theorem spec_c1_shape_check (operator : SetOp) (isAll : Bool) (l r : QueryNode) :
    ((∃ n, construct operator isAll l r = .ok n)
        ↔ l.getSelectedFields = r.getSelectedFields)
    ∧ (construct operator isAll l r
          = .error (.shapeMismatch shapeMismatchMessage)
        ↔ l.getSelectedFields ≠ r.getSelectedFields)
    ∧ chainOp operator isAll l (.lit r) [] = construct operator isAll l r
    ∧ setOperatorMethod operator isAll l (.lit r) = construct operator isAll l r := by
  refine ⟨?_, ?_, rfl, rfl⟩ <;>
    by_cases h : l.getSelectedFields = r.getSelectedFields <;>
      simp [construct, haveSameKeys, h]

/-- C3 (amended): the rendered output decomposes into the core
`(left) op (right)` text followed by the three modifier segments; the
ORDER BY segment is non-empty iff the orderBy modifier is a non-empty
list, while the LIMIT/OFFSET segments are non-empty iff the
corresponding modifier is set to a JS-truthy value — a limit/offset of
`0` is falsy and contributes zero characters. -/
theorem spec_c3_modifier_presence (operator : SetOp) (isAll : Bool)
    (l r : QueryNode) (sess : Option String) (dial : String)
    (joins : List (String × Bool)) (cfg : SetOpConfig) :
    renderChunks (getSQL (.comb operator isAll l r sess dial joins cfg)).1
      = "(" ++ renderChunks (getSQL l).1 ++ ") " ++ opToken operator isAll
        ++ "(" ++ renderChunks (getSQL r).1 ++ ")"
        ++ orderBySeg cfg ++ limitSeg cfg ++ offsetSeg cfg
    ∧ (orderBySeg cfg ≠ ""
        ↔ ∃ items, cfg.orderBy = some items ∧ 0 < items.length)
    ∧ (limitSeg cfg ≠ "" ↔ ∃ v, cfg.limit = some v ∧ v.jsTruthy = true)
    ∧ (offsetSeg cfg ≠ "" ↔ ∃ v, cfg.offset = some v ∧ v.jsTruthy = true) := by
  refine ⟨by simp [getSQL_comb, render_combineFragment], ?_, ?_, ?_⟩
  · rcases cfg with ⟨F, lim, ob, off⟩
    cases ob with
    | none => simp [orderBySeg]
    | some items =>
        by_cases hlen : 0 < items.length
        · simp only [orderBySeg, hlen, if_pos hlen]
          simp [hlen]
          rw [String.append_assoc]
          exact append_ne_empty_of_left _ _ (by decide)
        · simp [orderBySeg, hlen]
  · rcases cfg with ⟨F, lim, ob, off⟩
    cases lim with
    | none => simp [limitSeg]
    | some v => by_cases hv : v.jsTruthy <;> simp [limitSeg, hv]
  · rcases cfg with ⟨F, lim, ob, off⟩
    cases off with
    | none => simp [offsetSeg]
    | some v => by_cases hv : v.jsTruthy <;> simp [offsetSeg, hv]

/-- C4: rendering a set-operator node produces, in this fixed order, the
parenthesized left fragment, the lowercase operator keyword, the literal
`all ` token exactly when the ALL variant was used, the parenthesized
right fragment, and then the ORDER BY, LIMIT and OFFSET segments in that
order. -/
theorem spec_c4_render_order (operator : SetOp) (isAll : Bool)
    (l r : QueryNode) (sess : Option String) (dial : String)
    (joins : List (String × Bool)) (cfg : SetOpConfig) :
    renderChunks (getSQL (.comb operator isAll l r sess dial joins cfg)).1
      = "(" ++ renderChunks (getSQL l).1 ++ ") "
        ++ (operator.keyword ++ " ")
        ++ (if isAll then "all " else "")
        ++ ("(" ++ renderChunks (getSQL r).1 ++ ")")
        ++ orderBySeg cfg ++ limitSeg cfg ++ offsetSeg cfg := by
  simp [getSQL_comb, render_combineFragment, opToken, String.append_assoc]

@[simp]
theorem mkNode_getSelectedFields (operator : SetOp) (isAll : Bool)
    (l r : QueryNode) :
    (mkNode operator isAll l r).getSelectedFields = l.getSelectedFields := rfl

@[simp]
theorem mkNode_sessionOf (operator : SetOp) (isAll : Bool) (l r : QueryNode) :
    (mkNode operator isAll l r).sessionOf = l.sessionOf := rfl

@[simp]
theorem mkNode_dialectOf (operator : SetOp) (isAll : Bool) (l r : QueryNode) :
    (mkNode operator isAll l r).dialectOf = l.dialectOf := rfl

@[simp]
theorem mkNode_joinsOf (operator : SetOp) (isAll : Bool) (l r : QueryNode) :
    (mkNode operator isAll l r).joinsOf = l.joinsOf := rfl

theorem construct_ok (operator : SetOp) (isAll : Bool) {l r n : QueryNode}
    (h : construct operator isAll l r = .ok n) :
    n = mkNode operator isAll l r := by
  by_cases hk : haveSameKeys l.getSelectedFields r.getSelectedFields <;>
    simp [construct, hk] at h
  exact h.symm

theorem constructDyn_ok (operator : SetOp) (isAll : Bool) {l : QueryNode}
    {r : OperandArg} {n : QueryNode}
    (h : constructDyn operator isAll l r = .ok n) :
    ∃ q, r = .lit q ∧ n = mkNode operator isAll l q := by
  cases r with
  | lit q => exact ⟨q, rfl, construct_ok operator isAll h⟩
  | fn f => simp [constructDyn] at h

theorem renderChunks_mkNode (operator : SetOp) (isAll : Bool)
    (a q : QueryNode) :
    renderChunks (getSQL (mkNode operator isAll a q)).1
      = "(" ++ renderChunks (getSQL a).1 ++ ") " ++ opToken operator isAll
        ++ "(" ++ renderChunks (getSQL q).1 ++ ")" := by
  simp [mkNode, getSQL_comb, render_combineFragment, orderBySeg, limitSeg,
    offsetSeg, String.append_empty]

theorem renderChunks_leftDeepFold (operator : SetOp) (isAll : Bool) :
    ∀ (qs : List QueryNode) (acc : QueryNode),
      renderChunks (getSQL (leftDeepFold operator isAll acc qs)).1
        = qs.foldl
            (fun s q => "(" ++ s ++ ") " ++ opToken operator isAll
              ++ "(" ++ renderChunks (getSQL q).1 ++ ")")
            (renderChunks (getSQL acc).1)
  | [], acc => rfl
  | q :: qs, acc => by
      simp only [leftDeepFold, List.foldl_cons]
      rw [renderChunks_leftDeepFold operator isAll qs
        (mkNode operator isAll acc q), renderChunks_mkNode]

theorem chainOp_fold (operator : SetOp) (isAll : Bool) :
    ∀ (rest : List QueryNode) (acc q : QueryNode),
      (∀ x ∈ q :: rest, x.getSelectedFields = acc.getSelectedFields) →
      chainOp operator isAll acc (.lit q) (rest.map fun x => some (.lit x))
        = .ok (leftDeepFold operator isAll (mkNode operator isAll acc q) rest)
  | [], acc, q, h => by
      simp [chainOp, constructDyn, construct, haveSameKeys,
        h q (List.mem_cons_self q _), leftDeepFold]
  | x :: rest, acc, q, h => by
      have hq : q.getSelectedFields = acc.getSelectedFields :=
        h q (List.mem_cons_self q _)
      have hx : ∀ y ∈ x :: rest,
          y.getSelectedFields
            = (mkNode operator isAll acc q).getSelectedFields := by
        intro y hy
        simpa using h y (List.mem_cons_of_mem q hy)
      have ih := chainOp_fold operator isAll rest
        (mkNode operator isAll acc q) x hx
      simp only [List.map_cons, chainOp, constructDyn, construct,
        haveSameKeys, hq, beq_self_eq_true, if_pos]
      simpa [leftDeepFold] using ih

/-- C2 (amended): the ORDER BY rewrite replaces a qualified column
reference with its bare name only when the reference is itself an ORDER
BY entry or a top-level chunk of an ORDER BY `SQL` expression; a chunk
that is a nested sub-fragment is passed through completely unchanged
(so column references at nesting depth two or more keep rendering
qualified), and non-column content is untouched. -/
theorem spec_c2_rewrite_top_level_only (operator : SetOp) (isAll : Bool)
    (l r : QueryNode) (sess : Option String) (dial : String)
    (joins : List (String × Bool)) (F : List String)
    (lim off : Option SQLValue) (items : List OrderByItem) :
    (getSQL (.comb operator isAll l r sess dial joins
        ⟨F, lim, some items, off⟩)).2
      = .comb operator isAll (getSQL l).2 (getSQL r).2 sess dial joins
          ⟨F, lim, some (items.map rewriteOrderByEntry), off⟩
    ∧ (∀ t nm, rewriteOrderByEntry (.column t nm) = .column t nm)
    ∧ (∀ cs, rewriteOrderByEntry (.sqlExpr cs)
        = .sqlExpr (cs.map rewriteTopChunk))
    ∧ (∀ t nm, rewriteTopChunk (.col t nm) = .sub (sqlRaw nm))
    ∧ (∀ g, rewriteTopChunk (.sub g) = .sub g)
    ∧ (∀ s, rewriteTopChunk (.str s) = .str s)
    ∧ (∀ cs, renderChunks (orderByValue (.sqlExpr cs))
        = renderChunks (cs.map rewriteTopChunk))
    ∧ (∀ g, renderChunk (Chunk.sub g) = renderChunks g) := by
  refine ⟨by simp [getSQL_comb, rewriteConfig], ?_, ?_, ?_, ?_, ?_,
    fun cs => by simp [orderByValue, renderChunk, String.append_empty], ?_⟩ <;>
    intros <;> rfl

/-- C9: rendering is idempotent over the node state — calling
`toSQL()`/`getSQL()` a second time, with no modifier change in between,
returns a byte-identical `{sql, params}` object (and leaves the node in
the same state), even though the first call rewrote the ORDER BY column
chunks in place. -/
theorem spec_c9_idempotent_render (n : QueryNode) :
    (toSQL (toSQL n).2).1 = (toSQL n).1
    ∧ (toSQL (toSQL n).2).2 = (toSQL n).2 := by
  constructor <;> simp [toSQL, getSQL_getSQL n]

/-- A concrete single-column base query rendering as `select 1`. -/
def bqSelOne : BaseQuery :=
  { fields := ["x"], body := sqlRaw ("select 1") }

/-- A concrete single-column base query rendering as `select 2`. -/
def bqSelTwo : BaseQuery :=
  { fields := ["x"], body := sqlRaw ("select 2") }

/-- A concrete single-column base query rendering as `select 3`. -/
def bqSelThree : BaseQuery :=
  { fields := ["x"], body := sqlRaw ("select 3") }

/-- A base query whose row shape differs from `bqSelOne`'s. -/
def bqShapeY : BaseQuery :=
  { fields := ["y"], body := sqlRaw ("select 9") }

/-- An ORDER BY expression whose column reference sits inside a nested
sub-fragment, i.e. at nesting depth two: `lower(` + (sub-fragment with
column `t.a`) + `)`. -/
def c2OrderExpr : ChunkList :=
  ofChunks [.str ("lower("), .sub (ofChunks [.col ("t") ("a")]), .str (")")]

/-- A union node whose ORDER BY expression holds its column reference
only inside a nested sub-fragment. -/
def c2Node : QueryNode :=
  .comb .union false (.base bqSelOne) (.base bqSelTwo) none ("pg") []
    ⟨["x"], none, some [.sqlExpr c2OrderExpr], none⟩

/-- C2 (counterexample): on a node whose ORDER BY expression contains a
qualified column reference at nesting depth two, rendering keeps the
reference fully qualified — the output is not the bare-name form the
claim requires, and even the in-place ORDER BY rewrite leaves the node
unchanged. -/
theorem spec_c2_counterexample :
    renderChunks (getSQL c2Node).1
      = "(select 1) union (select 2) order by lower(\"t\".\"a\") "
    ∧ renderChunks (getSQL c2Node).1
        ≠ "(select 1) union (select 2) order by lower(a) "
    ∧ (getSQL c2Node).2 = c2Node := by
  exact ⟨rfl, by decide, by decide⟩

/-- A config with both limit and offset set to the number `0`. -/
def c3Config : SetOpConfig :=
  ⟨["x"], some (.num 0), none, some (.num 0)⟩

/-- A union node with `limit(0)` and `offset(0)` applied. -/
def c3Node : QueryNode :=
  .comb .union false (.base bqSelOne) (.base bqSelTwo) none ("pg") [] c3Config

/-- C3 (counterexample): with the limit and offset modifiers set to the
defined value `0`, the rendered output contains no LIMIT and no OFFSET
clause at all — `0` is falsy, so the truthiness test in `getSQL`
suppresses both clauses. -/
theorem spec_c3_counterexample :
    c3Config.limit = some (SQLValue.num 0)
    ∧ c3Config.offset = some (SQLValue.num 0)
    ∧ limitSeg c3Config = ""
    ∧ offsetSeg c3Config = ""
    ∧ renderChunks (getSQL c3Node).1 = "(select 1) union (select 2)" := by
  exact ⟨rfl, rfl, rfl, rfl, rfl⟩

/-- C5: the chain builder folds an operand list `[q0, q1, …, qn]` into
the left-deep tree `combine(combine(combine(q0,q1), q2), …, qn)` for the
one operator/allVariant pair, and the rendered SQL of that tree is the
fully parenthesized left-deep form `((…((q0) op (q1))…) op (qn-1)) op (qn)`
built by the corresponding string fold. -/
theorem spec_c5_chain_left_deep (operator : SetOp) (isAll : Bool)
    (q0 q1 : QueryNode) (rest : List QueryNode)
    (h : ∀ q ∈ q1 :: rest, q.getSelectedFields = q0.getSelectedFields) :
    chainOp operator isAll q0 (.lit q1) (rest.map fun x => some (.lit x))
      = .ok (leftDeepFold operator isAll (mkNode operator isAll q0 q1) rest)
    ∧ renderChunks
        (getSQL (leftDeepFold operator isAll (mkNode operator isAll q0 q1) rest)).1
      = (q1 :: rest).foldl
          (fun s q => "(" ++ s ++ ") " ++ opToken operator isAll
            ++ "(" ++ renderChunks (getSQL q).1 ++ ")")
          (renderChunks (getSQL q0).1) := by
  refine ⟨chainOp_fold operator isAll rest q0 q1 h, ?_⟩
  rw [List.foldl_cons,
    renderChunks_leftDeepFold operator isAll rest (mkNode operator isAll q0 q1),
    renderChunks_mkNode]

theorem spec_c5_chain_left_deep_witness :
    chainOp SetOp.union false (.base bqSelOne) (.lit (.base bqSelTwo))
        ([QueryNode.base bqSelThree].map fun x => some (.lit x))
      = .ok (leftDeepFold SetOp.union false
          (mkNode SetOp.union false (.base bqSelOne) (.base bqSelTwo))
          [QueryNode.base bqSelThree])
    ∧ renderChunks
        (getSQL (leftDeepFold SetOp.union false
          (mkNode SetOp.union false (.base bqSelOne) (.base bqSelTwo))
          [QueryNode.base bqSelThree])).1
      = (QueryNode.base bqSelTwo :: [QueryNode.base bqSelThree]).foldl
          (fun s q => "(" ++ s ++ ") " ++ opToken SetOp.union false
            ++ "(" ++ renderChunks (getSQL q).1 ++ ")")
          (renderChunks (getSQL (QueryNode.base bqSelOne)).1) :=
  spec_c5_chain_left_deep SetOp.union false (.base bqSelOne) (.base bqSelTwo)
    [QueryNode.base bqSelThree] (by decide)

/-- A right-hand operand given as a function over the operator registry. -/
def c6Callback : PgSetOperatorsReg → Except SetOpError QueryNode :=
  fun ops => ops.union (.base bqSelTwo) (.base bqSelThree) []

/-- C6 (counterexample): the free chain-builder function does not accept
a function operand — it hands the value straight to the constructor,
which fails with a `TypeError` instead of resolving it — while the
fluent instance method resolves the very same callback and succeeds. -/
theorem spec_c6_counterexample :
    union (.base bqSelOne) (.fn c6Callback) [] = .error .typeError
    ∧ QueryNode.union (.base bqSelOne) (.fn c6Callback)
        = .ok (mkNode SetOp.union false (.base bqSelOne)
            (mkNode SetOp.union false (.base bqSelTwo) (.base bqSelThree))) := by
  exact ⟨rfl, rfl⟩

/-- C6 (amended): only the fluent instance methods accept the
registry-function operand form; they resolve it eagerly — the callback
is applied to `getPgSetOperators()` and only then does shape validation
run on the resolved query — whereas the free chain-builder functions
perform no resolution: a function operand there reaches the constructor
unresolved and fails with a `TypeError`. -/
theorem spec_c6_operand_resolution (operator : SetOp) (isAll : Bool)
    (self : QueryNode) (f : PgSetOperatorsReg → Except SetOpError QueryNode)
    (q : QueryNode) :
    setOperatorMethod operator isAll self (.fn f)
      = (f getPgSetOperators).bind
          (fun rightSelectOrig => construct operator isAll self rightSelectOrig)
    ∧ setOperatorMethod operator isAll self (.lit q)
        = construct operator isAll self q
    ∧ chainOp operator isAll self (.fn f) [] = .error .typeError
    ∧ constructDyn operator isAll self (.fn f) = .error .typeError := by
  exact ⟨rfl, rfl, rfl, rfl⟩

@[simp]
theorem except_error_bind {ε α β : Type} (e : ε) (k : α → Except ε β) :
    (Except.error e >>= k) = Except.error e := rfl

@[simp]
theorem except_ok_bind {ε α β : Type} (a : α) (k : α → Except ε β) :
    (Except.ok a >>= k) = k a := rfl

theorem chainOp_missing (operator : SetOp) (isAll : Bool) :
    ∀ (rest : List QueryNode) (acc q : QueryNode)
      (tail : List (Option OperandArg)),
      (∀ x ∈ q :: rest, x.getSelectedFields = acc.getSelectedFields) →
      chainOp operator isAll acc (.lit q)
          ((rest.map fun x => some (.lit x)) ++ none :: tail)
        = .error (.missingOperand missingOperandMessage)
  | [], acc, q, tail, _ => by simp [chainOp]
  | x :: rest, acc, q, tail, h => by
      have hq : q.getSelectedFields = acc.getSelectedFields :=
        h q (List.mem_cons_self q _)
      have hx : ∀ y ∈ x :: rest,
          y.getSelectedFields
            = (mkNode operator isAll acc q).getSelectedFields := by
        intro y hy
        simpa using h y (List.mem_cons_of_mem q hy)
      have ih := chainOp_missing operator isAll rest
        (mkNode operator isAll acc q) x tail hx
      simp only [List.map_cons, List.cons_append, chainOp, constructDyn,
        construct, haveSameKeys, hq, beq_self_eq_true, if_pos]
      simpa using ih

theorem chainOp_never_ok_of_none (operator : SetOp) (isAll : Bool) :
    ∀ (rs : List (Option OperandArg)) (q0 : QueryNode) (r : OperandArg)
      (n : QueryNode),
      none ∈ rs → chainOp operator isAll q0 r rs ≠ .ok n
  | [], _, _, _, h => absurd h (by simp)
  | none :: rs, q0, r, n, _ => by simp [chainOp]
  | some s :: rs, q0, r, n, h => by
      have hmem : none ∈ rs := by simpa using h
      cases hcd : constructDyn operator isAll q0 r with
      | error e => simp [chainOp, hcd]
      | ok node =>
          simp only [chainOp, hcd]
          simpa using chainOp_never_ok_of_none operator isAll rs node s n hmem

/-- C7 (amended): a chain-builder call whose rest list contains an
`undefined` entry never returns a node, and it fails with the
missing-operand error whenever every combination step reached before the
`undefined` entry passes shape validation (in particular, whenever all
operands share the left-most operand's shape); an earlier shape
mismatch surfaces as the shape error instead, because each running pair
is constructed before the next rest entry is examined. -/
theorem spec_c7_missing_operand (operator : SetOp) (isAll : Bool)
    (q0 q1 : QueryNode) (rest : List QueryNode)
    (tail : List (Option OperandArg))
    (h : ∀ q ∈ q1 :: rest, q.getSelectedFields = q0.getSelectedFields) :
    chainOp operator isAll q0 (.lit q1)
        ((rest.map fun x => some (.lit x)) ++ none :: tail)
      = .error (.missingOperand missingOperandMessage)
    ∧ ∀ (r : OperandArg) (rs : List (Option OperandArg)) (n : QueryNode),
        none ∈ rs → chainOp operator isAll q0 r rs ≠ .ok n :=
  ⟨chainOp_missing operator isAll rest q0 q1 tail h,
   fun r rs n hn => chainOp_never_ok_of_none operator isAll rs q0 r n hn⟩

theorem spec_c7_missing_operand_witness :
    chainOp SetOp.union false (.base bqSelOne) (.lit (.base bqSelTwo)) [none]
      = .error (.missingOperand missingOperandMessage)
    ∧ chainOp SetOp.union false (.base bqSelOne) (.lit (.base bqSelTwo)) [none]
        ≠ .ok (mkNode SetOp.union false (.base bqSelOne) (.base bqSelTwo)) :=
  ⟨(spec_c7_missing_operand SetOp.union false (.base bqSelOne)
      (.base bqSelTwo) [] [] (by decide)).1,
   (spec_c7_missing_operand SetOp.union false (.base bqSelOne)
      (.base bqSelTwo) [] [] (by decide)).2
     (.lit (.base bqSelTwo)) [none]
     (mkNode SetOp.union false (.base bqSelOne) (.base bqSelTwo)) (by simp)⟩

/-- C7 (counterexample): when an earlier operand pair has mismatching
shapes, a chain call whose rest list contains an `undefined` entry fails
with the shape-mismatch error, not the missing-operand error the claim
requires — the running combination is attempted before the `undefined`
entry is reached. -/
theorem spec_c7_counterexample :
    union (.base bqSelOne) (.lit (.base bqShapeY))
        [some (.lit (.base bqSelTwo)), none]
      = .error (.shapeMismatch shapeMismatchMessage)
    ∧ (Except.error (SetOpError.shapeMismatch shapeMismatchMessage)
          : Except SetOpError QueryNode)
        ≠ .error (.missingOperand missingOperandMessage) := by
  exact ⟨rfl, by simp⟩

theorem chainOp_fields (operator : SetOp) (isAll : Bool) :
    ∀ (rs : List (Option OperandArg)) (q0 : QueryNode) (r : OperandArg)
      (n : QueryNode),
      chainOp operator isAll q0 r rs = .ok n →
      n.getSelectedFields = q0.getSelectedFields
  | [], q0, r, n, h => by
      obtain ⟨q, _, hn⟩ := constructDyn_ok operator isAll h
      simp [hn]
  | none :: rs, q0, r, n, h => by simp [chainOp] at h
  | some s :: rs, q0, r, n, h => by
      cases hcd : constructDyn operator isAll q0 r with
      | error e => simp [chainOp, hcd] at h
      | ok node =>
          have h2 : chainOp operator isAll node s rs = .ok n := by
            simpa [chainOp, hcd] using h
          obtain ⟨q, _, hn⟩ := constructDyn_ok operator isAll hcd
          have := chainOp_fields operator isAll rs node s n h2
          simp [this, hn]

/-- C8: a successfully constructed node snapshots its result fields,
session handle, dialect and join-nullability map exclusively from the
left operand (the right operand's values are discarded), and therefore
the selected fields of any chain-builder result — the shape every fold
step validates the next operand against — are exactly the left-most
operand's fields, propagated through the running combined node. -/
theorem spec_c8_left_snapshot (operator : SetOp) (isAll : Bool) :
    (∀ l r n, construct operator isAll l r = .ok n →
        n.getSelectedFields = l.getSelectedFields
        ∧ n.sessionOf = l.sessionOf
        ∧ n.dialectOf = l.dialectOf
        ∧ n.joinsOf = l.joinsOf)
    ∧ ∀ (rs : List (Option OperandArg)) (q0 : QueryNode) (r : OperandArg)
        (n : QueryNode),
        chainOp operator isAll q0 r rs = .ok n →
        n.getSelectedFields = q0.getSelectedFields := by
  constructor
  · intro l r n h
    have hn := construct_ok operator isAll h
    simp [hn]
  · intro rs q0 r n h
    exact chainOp_fields operator isAll rs q0 r n h

/-- A left operand carrying distinctive session, dialect and
join-nullability state. -/
def bqLeftState : BaseQuery :=
  { fields := ["x"], body := sqlRaw ("select l"),
    session := some ("sessL"), dialect := "pgL",
    joinsNotNullableMap := [(("tl"), true)] }

/-- A right operand with the same shape but different session, dialect
and join-nullability state. -/
def bqRightState : BaseQuery :=
  { fields := ["x"], body := sqlRaw ("select r"),
    session := some ("sessR"), dialect := "pgR",
    joinsNotNullableMap := [(("tr"), false)] }

theorem spec_c8_left_snapshot_witness :
    (mkNode SetOp.union false (.base bqLeftState)
        (.base bqRightState)).getSelectedFields
      = (QueryNode.base bqLeftState).getSelectedFields
    ∧ (mkNode SetOp.union false (.base bqLeftState)
        (.base bqRightState)).sessionOf
      = (QueryNode.base bqLeftState).sessionOf
    ∧ (mkNode SetOp.union false (.base bqLeftState)
        (.base bqRightState)).dialectOf
      = (QueryNode.base bqLeftState).dialectOf
    ∧ (mkNode SetOp.union false (.base bqLeftState)
        (.base bqRightState)).joinsOf
      = (QueryNode.base bqLeftState).joinsOf :=
  (spec_c8_left_snapshot SetOp.union false).1 (.base bqLeftState)
    (.base bqRightState) _ rfl

/-- C10: when an ORDER BY expression carries a column object among its
top-level query chunks, the first `getSQL()` call changes the
caller-visible ORDER BY state — every entry is replaced by its rewritten
form, and the rewritten entry list (like the rewritten chunk list of the
affected expression) differs from the original: the column chunk has
been replaced in place by a raw bare-name fragment. -/
theorem spec_c10_frame_effect (operator : SetOp) (isAll : Bool)
    (l r : QueryNode) (sess : Option String) (dial : String)
    (joins : List (String × Bool)) (F : List String)
    (lim off : Option SQLValue) (items : List OrderByItem)
    (cs : ChunkList) (t nm : String)
    (h1 : OrderByItem.sqlExpr cs ∈ items)
    (h2 : ChunkList.Mem (Chunk.col t nm) cs) :
    (getSQL (.comb operator isAll l r sess dial joins
        ⟨F, lim, some items, off⟩)).2
      = .comb operator isAll (getSQL l).2 (getSQL r).2 sess dial joins
          ⟨F, lim, some (items.map rewriteOrderByEntry), off⟩
    ∧ items.map rewriteOrderByEntry ≠ items
    ∧ cs.map rewriteTopChunk ≠ cs := by
  have hcs : cs.map rewriteTopChunk ≠ cs := by
    intro hmap
    have hc := chunkList_map_eq_self hmap _ h2
    simp [rewriteTopChunk, sqlRaw] at hc
  refine ⟨by simp [getSQL_comb, rewriteConfig], ?_, hcs⟩
  intro heq
  have he := list_map_eq_self heq _ h1
  exact hcs (by simpa [rewriteOrderByEntry] using he)

/-- An ORDER BY expression with a top-level column chunk: `t.a desc`. -/
def c10Expr : ChunkList :=
  ofChunks [.col ("t") ("a"), .str (" desc")]

/-- The ORDER BY list holding that expression. -/
def c10Items : List OrderByItem := [.sqlExpr c10Expr]

theorem spec_c10_frame_effect_witness :
    (getSQL (.comb SetOp.union false (.base bqSelOne) (.base bqSelTwo)
        none ("pg") [] ⟨["x"], none, some c10Items, none⟩)).2
      = .comb SetOp.union false (getSQL (QueryNode.base bqSelOne)).2
          (getSQL (QueryNode.base bqSelTwo)).2 none ("pg") []
          ⟨["x"], none, some (c10Items.map rewriteOrderByEntry), none⟩
    ∧ c10Items.map rewriteOrderByEntry ≠ c10Items
    ∧ c10Expr.map rewriteTopChunk ≠ c10Expr :=
  spec_c10_frame_effect SetOp.union false (.base bqSelOne) (.base bqSelTwo)
    none ("pg") [] ["x"] none none c10Items c10Expr ("t") ("a")
    (by simp [c10Items]) (by simp [c10Expr, ofChunks, ChunkList.Mem])

end Drizzle
